import Mathlib

/-!
# Verification of the wallpaper-management frontend core

Shallow embedding of the state handlers of `src/frontend/src/App.tsx`
(duplicate-group review, season classification results, settings) together
with the UI input constraints of `Settings.tsx` and the season-classifier
view, and spec-modelled definitions for the backend Reorganizer and the
automatic threshold search (whose Python sources are not part of the
frontend tree).

Conventions of the embedding:
* React state updates become pure functions `AppState → ... → AppState`.
* Every `axios` call a handler performs is recorded in an explicit list of
  emitted `Request` values, so "touches neither the cache nor the
  filesystem" is expressible as "emits no request".
* The backend outcome of an awaited call is a `Bool` parameter
  (`true` = the promise resolved, `false` = it rejected into `catch`).
* The threshold slider has `min="0.0" max="1.0" step="0.01"`; thresholds
  are rationals, and the grid of the automatic search is written in
  hundredths (`0..100`).
-/

/-- One image entry inside a duplicate group (`group.images` elements). -/
structure ImageEntry where
  path : String
  name : String
deriving Repr, DecidableEq

/-- A duplicate group as delivered by `/api/duplicates/scan` and held in the
`duplicateGroups` React state. -/
structure DuplicateGroup where
  hash : String
  images : List ImageEntry
deriving Repr, DecidableEq

/-- A season classification result as held in the `classificationResults`
React state (`path`, `prediction` text, `is_unknown` flag). -/
structure ClassificationResult where
  path : String
  prediction : String
  is_unknown : Bool
deriving Repr, DecidableEq

/-- A backend request emitted by a handler (an `axios.post` call).  These are
the only channel through which the frontend can reach the persisted analysis
cache or the filesystem. -/
inductive Request where
  | duplicateScan (folder : String) (workers : Nat)
  | duplicateDelete (path : String)
  | classifyScan (folder : String) (threshold : ℚ) (metric : String) (workers : Nat)
  | classifyExecute (mode : String) (folder : String) (outputFolder : String)
  | settingsSave (folder : String) (workers : Nat)
deriving Repr, DecidableEq

/-- The React state of `App.tsx` relevant to the verified handlers. -/
structure AppState where
  targetFolder : String
  outputFolder : String
  useCustomOutput : Bool
  duplicateGroups : List DuplicateGroup
  classificationResults : List ClassificationResult
  threshold : ℚ
  metric : String
  workers : Nat
  maxCores : Nat
deriving Repr, DecidableEq

/-- Initial values of the `useState` hooks in `App.tsx`
(`threshold = 0.5`, `metric = 'probability'`, `workers = 4`, `maxCores = 4`). -/
def initialState : AppState :=
  { targetFolder := ""
    outputFolder := ""
    useCustomOutput := false
    duplicateGroups := []
    classificationResults := []
    threshold := 1/2
    metric := "probability"
    workers := 4
    maxCores := 4 }

/-- The keys of the `metricLabels` object in `App.tsx`; the season-classifier
view renders exactly one metric button per key, so these are the metrics a
caller can select. -/
def metricLabels : List String := ["probability", "margin", "entropy"]

/-- `handleManualReclassify` of `App.tsx` restricted to the results list:
copy the array, replace entry `index` by a copy whose `prediction` is
`"a photo of " ++ newSeason` and whose `is_unknown` is `false`. -/
def reclassifyList (rs : List ClassificationResult) (index : Nat)
    (newSeason : String) : List ClassificationResult :=
  match rs[index]? with
  | some r =>
      rs.set index { r with prediction := "a photo of " ++ newSeason, is_unknown := false }
  | none => rs

/-- `handleManualReclassify` on the whole app state: it only rewrites
`classificationResults` and performs no backend call, hence the empty
request list. -/
def handleManualReclassify (st : AppState) (index : Nat) (newSeason : String) :
    AppState × List Request :=
  ({ st with classificationResults := reclassifyList st.classificationResults index newSeason },
   [])

/-- The per-group step of `handleDeleteImage`: filter the deleted path out of
`group.images` (`group.images.filter(img => img.path !== path)`). -/
def removeImagePath (p : String) (g : DuplicateGroup) : DuplicateGroup :=
  { g with images := g.images.filter (fun img => img.path != p) }

/-- The duplicate-group transform of `handleDeleteImage`: drop the path from
every group, then drop every group left with at most one image
(`.filter(group => group.images.length > 1)`). -/
def deleteImageGroups (gs : List DuplicateGroup) (p : String) : List DuplicateGroup :=
  (gs.map (removeImagePath p)).filter (fun g => g.images.length > 1)

/-- `handleDeleteImage` of `App.tsx`: post `/api/duplicates/delete`; only when
that call resolves is `duplicateGroups` replaced by the filtered list, the
`catch` branch leaves the state untouched. -/
def handleDeleteImage (st : AppState) (p : String) (backendOk : Bool) :
    AppState × List Request :=
  if backendOk then
    ({ st with duplicateGroups := deleteImageGroups st.duplicateGroups p },
     [Request.duplicateDelete p])
  else
    (st, [Request.duplicateDelete p])

/-- The state update of `runDuplicateScan` once the scan response arrived:
`duplicateGroups` is replaced only when the response is non-empty, otherwise
an info message is shown and the state keeps its previous groups. -/
def scanDuplicatesUpdate (st : AppState) (response : List DuplicateGroup) : AppState :=
  if response.length > 0 then { st with duplicateGroups := response } else st

/-- `handleExecuteClassification` of `App.tsx`: an early return on an empty
result list, an early return when `window.confirm` is declined; otherwise
`/api/classify/execute` is posted and on success the results are cleared
(`setClassificationResults([])`), while the `catch` branch leaves them
untouched. -/
def handleExecuteClassification (st : AppState) (mode : String)
    (confirmOk : Bool) (backendOk : Bool) : AppState × List Request :=
  if st.classificationResults.length = 0 then (st, [])
  else if !confirmOk then (st, [])
  else
    let req := Request.classifyExecute mode st.targetFolder
      (if st.useCustomOutput then st.outputFolder else st.targetFolder)
    if backendOk then ({ st with classificationResults := [] }, [req])
    else (st, [req])

/-- The request body `runSeasonClassification` posts to `/api/classify/scan`,
taken from the current state. -/
def seasonScanRequest (st : AppState) : Request :=
  Request.classifyScan st.targetFolder st.threshold st.metric st.workers

/-- The request body `runDuplicateScan` posts to `/api/duplicates/scan`. -/
def duplicateScanRequest (st : AppState) : Request :=
  Request.duplicateScan st.targetFolder st.workers

/-- Split a character list at every `' '`, the char-level counterpart of
JavaScript's `split(' ')` (empty pieces are kept, `[] ↦ [""]`). -/
def splitChars (cs : List Char) : List (List Char) :=
  match cs with
  | [] => [[]]
  | c :: rest =>
      let acc := splitChars rest
      if c = ' ' then [] :: acc
      else (c :: acc.headD []) :: acc.tail

/-- The last `' '`-separated word of a prediction string, lowercased —
`r.prediction.split(' ').pop().toLowerCase()` in the season-classifier view. -/
def lastWordLower (s : String) : String :=
  String.mk (((splitChars s.data).getLastD []).map Char.toLower)

/-- The season badge the results view derives from a result:
`r.is_unknown ? 'unknown' : r.prediction.split(' ').pop().toLowerCase()`. -/
def derivedSeason (r : ClassificationResult) : String :=
  if r.is_unknown then "unknown" else lastWordLower r.prediction

/-- The UI events that mutate the verified configuration state: the two
sliders, the metric buttons, and the `fetchSystemInfo` response
(`cores = res.data.cpu_cores`, `w = res.data.workers`, absent when the field
is missing). -/
inductive UiEvent where
  | setThreshold (t : ℚ)
  | setWorkers (w : Nat)
  | setMetric (m : String)
  | sysInfo (cores : Nat) (w : Option Nat)
deriving Repr, DecidableEq

/-- State transition for a UI event.  `sysInfo` mirrors
`setMaxCores(res.data.cpu_cores); if (res.data.workers) setWorkers(...)`:
the workers field is adopted only when present and truthy (non-zero). -/
def applyEvent (st : AppState) : UiEvent → AppState
  | .setThreshold t => { st with threshold := t }
  | .setWorkers w => { st with workers := w }
  | .setMetric m => { st with metric := m }
  | .sysInfo cores w =>
      { st with maxCores := cores,
                workers := match w with
                  | some v => if v ≠ 0 then v else st.workers
                  | none => st.workers }

/-- Which events the rendered UI can emit in a given state: the threshold
slider has `min="0.0" max="1.0"`, the workers slider has `min="1"
max={maxCores}`, the metric buttons exist only for the keys of
`metricLabels`, and the system-info response is outside the UI's control. -/
def uiEmits (st : AppState) : UiEvent → Bool
  | .setThreshold t => decide (0 ≤ t ∧ t ≤ 1)
  | .setWorkers w => decide (1 ≤ w ∧ w ≤ st.maxCores)
  | .setMetric m => decide (m ∈ metricLabels)
  | .sysInfo _ _ => true

/-- Fold a list of events over a state. -/
def runEvents (st : AppState) (evs : List UiEvent) : AppState :=
  evs.foldl applyEvent st

/-- A trace of events is valid when each event is emittable in the state it
fires from. -/
def validFrom : AppState → List UiEvent → Bool
  | _, [] => true
  | st, e :: rest => uiEmits st e && validFrom (applyEvent st e) rest

/-- Modelled from the spec: the Reorganizer backend (§4.6) is not part of the
frontend tree.  A filesystem is the list of present paths; `copy` of one file
writes the destination when the write succeeds and touches nothing else.  The
returned list is the sequence of observable filesystem states. -/
def copyFileStates (fs : List String) (src dst : String) (writeOk : Bool) :
    List (List String) :=
  let fs1 := if writeOk then dst :: fs else fs
  [fs, fs1]

/-- Modelled from the spec: `move` of one file (§4.6) writes the destination
first and removes the source only after the destination write fully
succeeded; on a failed write nothing is removed.  The returned list is the
sequence of observable filesystem states. -/
def moveFileStates (fs : List String) (src dst : String) (writeOk : Bool) :
    List (List String) :=
  let fs1 := if writeOk then dst :: fs else fs
  let fs2 := if writeOk then fs1.filter (fun q => q != src) else fs1
  [fs, fs1, fs2]

/-- Number of items flagged unknown at grid threshold `t` (in hundredths),
for a given unknown rule `flag` and input set `dists`. -/
def unknownCount {α : Type} (flag : Nat → α → Bool) (dists : List α) (t : Nat) : Nat :=
  (dists.filter (flag t)).length

/-- Modelled from the spec: the automatic threshold search (§4.5) scans the
grid `0.00, 0.01, ..., 1.00` (hundredths `0..n`) in order and keeps the
candidate with the minimum unknown count, preferring the smaller threshold
on ties (strict `<` to replace the incumbent). -/
def autoSearchUpTo (count : Nat → Nat) : Nat → Nat
  | 0 => 0
  | n + 1 =>
      let b := autoSearchUpTo count n
      if count (n + 1) < count b then n + 1 else b

/-- Modelled from the spec: the `--auto` threshold optimizer over the full
grid `0..100` hundredths for a metric's unknown rule `flag`. -/
def autoThreshold {α : Type} (flag : Nat → α → Bool) (dists : List α) : Nat :=
  autoSearchUpTo (unknownCount flag dists) 100

/-! ## Helper lemmas -/

theorem reclassifyList_getElem_self (rs : List ClassificationResult) (i : Nat)
    (s : String) (hi : i < rs.length) :
    (reclassifyList rs i s)[i]?
      = some { rs[i] with prediction := "a photo of " ++ s, is_unknown := false } := by
  unfold reclassifyList
  rw [List.getElem?_eq_getElem hi]
  simp [List.getElem?_set_self, hi]

theorem reclassifyList_getElem_ne (rs : List ClassificationResult) (i j : Nat)
    (s : String) (hj : j ≠ i) :
    (reclassifyList rs i s)[j]? = rs[j]? := by
  unfold reclassifyList
  cases h : rs[i]? with
  | none => rfl
  | some r => exact List.getElem?_set_ne (fun he => hj he.symm)

/-! ## C1 — manual reclassification is a pure single-item update -/

/-- **C1**: for every result index `i` and season label `s`, manual
reclassification sets `is_unknown` to `false` and overwrites the label of
result `i`, leaves every other result unchanged, and emits no backend
request — so it performs no write to the persisted cache or the filesystem
and also leaves the duplicate groups alone. -/
theorem manualReclassify_pure_single_update (st : AppState) (i : Nat) (s : String)
    (hi : i < st.classificationResults.length) :
    (handleManualReclassify st i s).2 = []
    ∧ (handleManualReclassify st i s).1.duplicateGroups = st.duplicateGroups
    ∧ ((handleManualReclassify st i s).1.classificationResults[i]?.map
        ClassificationResult.is_unknown) = some false
    ∧ ((handleManualReclassify st i s).1.classificationResults[i]?.map
        ClassificationResult.prediction) = some ("a photo of " ++ s)
    ∧ ∀ j, j ≠ i →
        (handleManualReclassify st i s).1.classificationResults[j]?
          = st.classificationResults[j]? := by
  refine ⟨rfl, rfl, ?_, ?_, ?_⟩
  · show (reclassifyList st.classificationResults i s)[i]?.map _ = _
    rw [reclassifyList_getElem_self _ _ _ hi]; rfl
  · show (reclassifyList st.classificationResults i s)[i]?.map _ = _
    rw [reclassifyList_getElem_self _ _ _ hi]; rfl
  · intro j hj
    exact reclassifyList_getElem_ne _ _ _ _ hj

/-- Two sample results used to evaluate the reclassification theorems on
concrete inputs. -/
def resA : ClassificationResult :=
  { path := "a.jpg", prediction := "a photo of winter", is_unknown := true }

def resB : ClassificationResult :=
  { path := "b.jpg", prediction := "a photo of summer", is_unknown := false }

def stC1 : AppState := { initialState with classificationResults := [resA, resB] }

/-- Witness for C1 at a concrete state: reclassifying result 0 to `summer`
emits no request, clears its unknown flag, and leaves result 1 alone. -/
theorem manualReclassify_pure_single_update_witness :
    (handleManualReclassify stC1 0 "summer").2 = []
    ∧ ((handleManualReclassify stC1 0 "summer").1.classificationResults[0]?.map
        ClassificationResult.is_unknown) = some false
    ∧ (handleManualReclassify stC1 0 "summer").1.classificationResults[1]?
        = stC1.classificationResults[1]? :=
  ⟨(manualReclassify_pure_single_update stC1 0 "summer" (by decide)).1,
   (manualReclassify_pure_single_update stC1 0 "summer" (by decide)).2.2.1,
   (manualReclassify_pure_single_update stC1 0 "summer" (by decide)).2.2.2.2 1 (by decide)⟩

/-! ## C8 — label formatting and label parsing round-trip -/

/-- On a result whose unknown flag is cleared, the view's derived season is
just the lowercased last word of the prediction. -/
theorem derivedSeason_not_unknown (p pred : String) :
    derivedSeason { path := p, prediction := pred, is_unknown := false }
      = lastWordLower pred := rfl

/-- **C8**: for every season `s` among spring, summer, autumn, winter and
every in-range index `i`, reclassifying item `i` to `s` stores the
prediction `"a photo of s"`, and the season the results view derives from
that entry (last space-separated word, lowercased, given `is_unknown` is
now false) is exactly `s`. -/
theorem reclassify_derivedSeason_roundtrip (rs : List ClassificationResult)
    (i : Nat) (s : String) (hi : i < rs.length)
    (hs : s ∈ ["spring", "summer", "autumn", "winter"]) :
    ((reclassifyList rs i s)[i]?.map ClassificationResult.prediction)
        = some ("a photo of " ++ s)
    ∧ ((reclassifyList rs i s)[i]?.map derivedSeason) = some s := by
  rw [reclassifyList_getElem_self _ _ _ hi]
  refine ⟨rfl, ?_⟩
  fin_cases hs <;>
    exact congrArg some ((derivedSeason_not_unknown _ _).trans (by decide))

/-- Witness for C8: reclassifying the sample result to `autumn` stores
`"a photo of autumn"` and the view parses `autumn` back out of it. -/
theorem reclassify_derivedSeason_roundtrip_witness :
    ((reclassifyList [resA] 0 "autumn")[0]?.map ClassificationResult.prediction)
        = some ("a photo of " ++ "autumn")
    ∧ ((reclassifyList [resA] 0 "autumn")[0]?.map derivedSeason) = some "autumn" :=
  reclassify_derivedSeason_roundtrip [resA] 0 "autumn" (by decide) (by decide)

/-! ## C2 / C4 — deleting a duplicate-group member -/

/-- Filtering one present path out of a duplicate-free path list removes
exactly one element. -/
theorem length_filter_path_ne (l : List ImageEntry) (p : String)
    (hnd : (l.map ImageEntry.path).Nodup) (hp : p ∈ l.map ImageEntry.path) :
    (l.filter (fun img => img.path != p)).length = l.length - 1 := by
  induction l with
  | nil => simp at hp
  | cons a l ih =>
      simp only [List.map_cons, List.nodup_cons] at hnd
      simp only [List.map_cons, List.mem_cons] at hp
      rcases hp with hp | hp
      · have hall : ∀ img ∈ l, (img.path != p) = true := by
          intro img himg
          have hmem : img.path ∈ l.map ImageEntry.path := List.mem_map_of_mem _ himg
          have hne : img.path ≠ p := by
            intro he
            exact hnd.1 (by rw [← hp, ← he]; exact hmem)
          simpa [bne_iff_ne] using hne
        have hfa : (a.path != p) = false := by simp [bne_iff_ne, hp]
        simp [List.filter_cons, hfa, List.filter_eq_self.mpr hall]
      · have hap : a.path ≠ p := by
          intro he; exact hnd.1 (he ▸ hp)
        have hlen : 1 ≤ l.length := by
          cases l with
          | nil => simp at hp
          | cons b t => simp
        have ihh := ih hnd.2 hp
        have hfa : (a.path != p) = true := by simp [bne_iff_ne, hap]
        simp only [List.filter_cons, hfa, if_true, List.length_cons, ihh]
        omega

/-- **C2**: for a group `g` of the current state that contains path `p`
(group paths being duplicate-free), deleting `p` removes exactly that image
from the group; a 2-member group is retired from the group list, and a group
with at least 3 members survives in the new list with exactly one member
fewer.  Moreover `p` appears in no group of the new list. -/
theorem deleteImage_shrinks_or_retires (gs : List DuplicateGroup) (p : String)
    (g : DuplicateGroup) (hg : g ∈ gs)
    (hnd : (g.images.map ImageEntry.path).Nodup)
    (hp : p ∈ g.images.map ImageEntry.path) :
    (removeImagePath p g).images.length = g.images.length - 1
    ∧ (g.images.length = 2 → removeImagePath p g ∉ deleteImageGroups gs p)
    ∧ (3 ≤ g.images.length → removeImagePath p g ∈ deleteImageGroups gs p)
    ∧ (∀ g' ∈ deleteImageGroups gs p, ∀ img ∈ g'.images, img.path ≠ p) := by
  have hlen : (removeImagePath p g).images.length = g.images.length - 1 :=
    length_filter_path_ne g.images p hnd hp
  refine ⟨hlen, ?_, ?_, ?_⟩
  · intro h2 hmem
    have := List.of_mem_filter hmem
    rw [hlen, h2] at this
    simp at this
  · intro h3
    refine List.mem_filter.mpr ⟨List.mem_map_of_mem _ hg, ?_⟩
    rw [hlen]
    simp only [decide_eq_true_eq]
    omega
  · intro g' hg' img himg
    have hmap := (List.mem_filter.mp hg').1
    obtain ⟨g0, _, hg0⟩ := List.mem_map.mp hmap
    rw [← hg0] at himg
    have := List.of_mem_filter himg
    simpa [bne_iff_ne] using this

/-- Concrete images and groups used to evaluate the duplicate-group theorems. -/
def imgA : ImageEntry := { path := "x/a.jpg", name := "a.jpg" }

def imgB : ImageEntry := { path := "x/b.jpg", name := "b.jpg" }

def imgC : ImageEntry := { path := "x/c.jpg", name := "c.jpg" }

def groupPair : DuplicateGroup := { hash := "h1", images := [imgA, imgB] }

def groupTriple : DuplicateGroup := { hash := "h2", images := [imgA, imgB, imgC] }

/-- Witness for C2 on a concrete state holding one 2-member and one 3-member
group: deleting `x/a.jpg` retires the pair and shrinks the triple to 2. -/
theorem deleteImage_shrinks_or_retires_witness :
    (removeImagePath "x/a.jpg" groupPair).images.length = groupPair.images.length - 1
    ∧ removeImagePath "x/a.jpg" groupPair ∉ deleteImageGroups [groupPair, groupTriple] "x/a.jpg"
    ∧ removeImagePath "x/a.jpg" groupTriple ∈ deleteImageGroups [groupPair, groupTriple] "x/a.jpg" :=
  ⟨(deleteImage_shrinks_or_retires [groupPair, groupTriple] "x/a.jpg" groupPair
      (by decide) (by decide) (by decide)).1,
   (deleteImage_shrinks_or_retires [groupPair, groupTriple] "x/a.jpg" groupPair
      (by decide) (by decide) (by decide)).2.1 (by decide),
   (deleteImage_shrinks_or_retires [groupPair, groupTriple] "x/a.jpg" groupTriple
      (by decide) (by decide) (by decide)).2.2.1 (by decide)⟩

/-- **C4**: every group the delete operation leaves in the list has at least
2 members (re-established unconditionally by its final filter), and a scan
response whose groups all have at least 2 members keeps the invariant when
installed by `runDuplicateScan` (the response side is the spec's size-≥-2
grouping rule, modelled from §3 since the grouping backend is not in the
frontend tree). -/
theorem duplicateGroups_min_size_invariant (st : AppState) (p : String)
    (response : List DuplicateGroup) :
    (∀ g ∈ deleteImageGroups st.duplicateGroups p, 2 ≤ g.images.length)
    ∧ ((∀ g ∈ st.duplicateGroups, 2 ≤ g.images.length) →
        (∀ g ∈ response, 2 ≤ g.images.length) →
        ∀ g ∈ (scanDuplicatesUpdate st response).duplicateGroups, 2 ≤ g.images.length) := by
  constructor
  · intro g hg
    have := List.of_mem_filter hg
    simp only [decide_eq_true_eq] at this
    omega
  · intro hold hresp g hg
    unfold scanDuplicatesUpdate at hg
    by_cases h : response.length > 0
    · rw [if_pos h] at hg
      exact hresp g hg
    · rw [if_neg h] at hg
      exact hold g hg

/-- Witness for C4 at a concrete state: after deleting `x/a.jpg` the
surviving group still has at least 2 members, and installing a conforming
scan response keeps the bound. -/
theorem duplicateGroups_min_size_invariant_witness :
    2 ≤ (removeImagePath "x/a.jpg" groupTriple).images.length
    ∧ 2 ≤ groupPair.images.length :=
  ⟨(duplicateGroups_min_size_invariant
      { initialState with duplicateGroups := [groupPair, groupTriple] } "x/a.jpg" []).1
      (removeImagePath "x/a.jpg" groupTriple) (by decide),
   (duplicateGroups_min_size_invariant initialState "q" [groupPair]).2
      (by decide) (by decide) groupPair (by decide)⟩

/-! ## C9 / C10 — atomicity of the two mutating backend calls -/

/-- **C9**: the delete-image handler awaits the backend before touching any
state: when the request rejects, the whole state — in particular the
duplicate-group list — is exactly the old one, and only a resolved request
installs the filtered group list. -/
theorem deleteImage_atomic (st : AppState) (p : String) :
    (handleDeleteImage st p false).1 = st
    ∧ (handleDeleteImage st p true).1.duplicateGroups
        = deleteImageGroups st.duplicateGroups p :=
  ⟨rfl, rfl⟩

/-- **C10**: executing the reorganization clears the in-memory results on
success (so they cannot be submitted twice) and leaves them unchanged when
the backend call rejects, whatever the confirm dialog answered. -/
theorem executeClassification_atomic (st : AppState) (mode : String) (c : Bool) :
    (handleExecuteClassification st mode c false).1.classificationResults
        = st.classificationResults
    ∧ (handleExecuteClassification st mode true true).1.classificationResults = [] := by
  constructor
  · unfold handleExecuteClassification
    by_cases h0 : st.classificationResults.length = 0
    · rw [if_pos h0]
    · rw [if_neg h0]
      cases c <;> simp
  · unfold handleExecuteClassification
    by_cases h0 : st.classificationResults.length = 0
    · rw [if_pos h0]
      exact List.length_eq_zero.mp h0
    · rw [if_neg h0]
      simp

/-! ## C3 — which uncertainty metrics the caller can select -/

/-- Counterexample to C3 as stated: three of the §4.4 metric names —
`margin_confidence`, `least_confidence` and `ratio_confidence` — have no
button in the season-classifier view (its buttons are exactly the keys of
`metricLabels`), so the caller cannot select them for the scan. -/
theorem metric_selection_counterexample :
    uiEmits initialState (UiEvent.setMetric "margin_confidence") = false
    ∧ uiEmits initialState (UiEvent.setMetric "least_confidence") = false
    ∧ uiEmits initialState (UiEvent.setMetric "ratio_confidence") = false := by
  decide

/-- **C3 (amended)**: the metric is caller-supplied configuration, but the
selectable metrics are exactly the three keys of `metricLabels` —
`probability`, `margin`, `entropy`; choosing any of them makes the next
season-scan request carry that metric verbatim. -/
theorem metric_selection_amended (st : AppState) (m : String)
    (hm : m ∈ metricLabels) :
    metricLabels = ["probability", "margin", "entropy"]
    ∧ uiEmits st (UiEvent.setMetric m) = true
    ∧ seasonScanRequest (applyEvent st (UiEvent.setMetric m))
        = Request.classifyScan st.targetFolder st.threshold m st.workers := by
  refine ⟨rfl, ?_, rfl⟩
  simp [uiEmits, hm]

/-- Witness for the amended C3 at the concrete metric `entropy`. -/
theorem metric_selection_amended_witness :
    uiEmits initialState (UiEvent.setMetric "entropy") = true
    ∧ seasonScanRequest (applyEvent initialState (UiEvent.setMetric "entropy"))
        = Request.classifyScan "" (1/2) "entropy" 4 :=
  ⟨(metric_selection_amended initialState "entropy" (by decide)).2.1,
   (metric_selection_amended initialState "entropy" (by decide)).2.2⟩

/-! ## C5 — configuration carried by issued scan requests -/

/-- The configuration bounds the UI maintains: threshold in `[0,1]` and at
least one worker. -/
def configInvariant (st : AppState) : Prop :=
  0 ≤ st.threshold ∧ st.threshold ≤ 1 ∧ 1 ≤ st.workers

/-- Every UI-emittable event preserves the configuration bounds. -/
theorem configInvariant_step (st : AppState) (e : UiEvent)
    (hinv : configInvariant st) (he : uiEmits st e = true) :
    configInvariant (applyEvent st e) := by
  obtain ⟨h0, h1, hw⟩ := hinv
  cases e with
  | setThreshold t =>
      simp only [uiEmits, decide_eq_true_eq] at he
      exact ⟨he.1, he.2, hw⟩
  | setWorkers w =>
      simp only [uiEmits, decide_eq_true_eq] at he
      exact ⟨h0, h1, he.1⟩
  | setMetric m => exact ⟨h0, h1, hw⟩
  | sysInfo cores w =>
      refine ⟨h0, h1, ?_⟩
      cases w with
      | none => exact hw
      | some v =>
          simp only [applyEvent]
          by_cases hv : v ≠ 0
      -- either the backend value (non-zero, hence ≥ 1) or the old workers
          · rw [if_pos hv]; omega
          · rw [if_neg hv]; exact hw

/-- The configuration bounds hold along every valid trace from the initial
state. -/
theorem configInvariant_runEvents (evs : List UiEvent) :
    ∀ st, configInvariant st → validFrom st evs = true →
      configInvariant (runEvents st evs) := by
  induction evs with
  | nil => intro st h _; exact h
  | cons e rest ih =>
      intro st h hv
      simp only [validFrom, Bool.and_eq_true] at hv
      exact ih (applyEvent st e) (configInvariant_step st e h hv.1) hv.2

/-- **C5 (amended)**: in every state the UI can reach, the threshold lies in
`[0,1]` and the worker count is at least 1, and the season-scan request
issued from such a state carries exactly those state values — so a threshold
outside `[0,1]` or a worker count below 1 can never reach a scan.  (The
claim's additional bound `workers ≤ available cores` is the part refuted by
the counterexample.) -/
theorem scanRequest_config_amended (evs : List UiEvent)
    (hv : validFrom initialState evs = true) :
    0 ≤ (runEvents initialState evs).threshold
    ∧ (runEvents initialState evs).threshold ≤ 1
    ∧ 1 ≤ (runEvents initialState evs).workers
    ∧ seasonScanRequest (runEvents initialState evs)
        = Request.classifyScan (runEvents initialState evs).targetFolder
            (runEvents initialState evs).threshold
            (runEvents initialState evs).metric
            (runEvents initialState evs).workers := by
  have h0 : configInvariant initialState := by
    refine ⟨?_, ?_, ?_⟩ <;> norm_num [initialState, configInvariant]
  have h := configInvariant_runEvents evs initialState h0 hv
  exact ⟨h.1, h.2.1, h.2.2, rfl⟩

/-- Witness for the amended C5 on a concrete valid trace that moves the
threshold slider to its maximum 1.0 and the workers slider to 2. -/
theorem scanRequest_config_amended_witness :
    0 ≤ (runEvents initialState [UiEvent.setThreshold 1, UiEvent.setWorkers 2]).threshold
    ∧ (runEvents initialState [UiEvent.setThreshold 1, UiEvent.setWorkers 2]).threshold ≤ 1
    ∧ 1 ≤ (runEvents initialState [UiEvent.setThreshold 1, UiEvent.setWorkers 2]).workers :=
  ⟨(scanRequest_config_amended [UiEvent.setThreshold 1, UiEvent.setWorkers 2]
      (by decide)).1,
   (scanRequest_config_amended [UiEvent.setThreshold 1, UiEvent.setWorkers 2]
      (by decide)).2.1,
   (scanRequest_config_amended [UiEvent.setThreshold 1, UiEvent.setWorkers 2]
      (by decide)).2.2.1⟩

/-- Counterexample to C5 as stated: after the system-info fetch reports 2
available cores (and no workers field), the state still holds the hard-coded
default of 4 workers, and the duplicate-scan request issued from it carries
a worker count above the available core count. -/
theorem scanRequest_workers_exceed_cores :
    validFrom initialState [UiEvent.sysInfo 2 none] = true
    ∧ (runEvents initialState [UiEvent.sysInfo 2 none]).maxCores = 2
    ∧ duplicateScanRequest (runEvents initialState [UiEvent.sysInfo 2 none])
        = Request.duplicateScan "" 4
    ∧ ¬ ((runEvents initialState [UiEvent.sysInfo 2 none]).workers
          ≤ (runEvents initialState [UiEvent.sysInfo 2 none]).maxCores) := by
  decide

/-! ## C6 — copy never removes the source, move removes it only after a
confirmed destination write -/

/-- **C6**: for one file with source present and a distinct destination:
`copy` keeps the source in every observable state; in `move`, every
observable state still holds at least one of the two copies, a state missing
the source exists only after a fully successful destination write (and then
holds the destination), and a failed write changes nothing. -/
theorem reorganize_never_loses_both (fs : List String) (src dst : String)
    (ok : Bool) (hsrc : src ∈ fs) (hne : src ≠ dst) :
    (∀ s ∈ copyFileStates fs src dst ok, src ∈ s)
    ∧ (∀ s ∈ moveFileStates fs src dst ok, src ∈ s ∨ dst ∈ s)
    ∧ (∀ s ∈ moveFileStates fs src dst ok, src ∉ s → ok = true ∧ dst ∈ s)
    ∧ (ok = false → moveFileStates fs src dst ok = [fs, fs, fs]) := by
  have hdst : dst ∈ (dst :: fs).filter (fun q => q != src) := by
    refine List.mem_filter.mpr ⟨List.mem_cons_self _ _, ?_⟩
    simp [bne_iff_ne]
    exact fun h => hne h.symm
  refine ⟨?_, ?_, ?_, ?_⟩
  · intro s hs
    cases ok <;> simp [copyFileStates] at hs <;>
      rcases hs with rfl | rfl <;> simp [hsrc]
  · intro s hs
    cases ok <;> simp [moveFileStates] at hs
    · rcases hs with rfl | rfl | rfl <;> exact Or.inl hsrc
    · rcases hs with rfl | rfl | rfl
      · exact Or.inl hsrc
      · exact Or.inl (List.mem_cons_of_mem _ hsrc)
      · exact Or.inr hdst
  · intro s hs hnosrc
    cases ok <;> simp [moveFileStates] at hs
    · rcases hs with rfl | rfl | rfl <;> exact absurd hsrc hnosrc
    · rcases hs with rfl | rfl | rfl
      · exact absurd hsrc hnosrc
      · exact absurd (List.mem_cons_of_mem _ hsrc) hnosrc
      · exact ⟨rfl, hdst⟩
  · intro hok
    subst hok
    simp [moveFileStates]

/-- Witness for C6 on a concrete filesystem, exercised at both a successful
and a failed write. -/
theorem reorganize_never_loses_both_witness :
    ("x/a.jpg" ∈ (["x/a.jpg", "x/b.jpg"] : List String))
    ∧ ("x/a.jpg" ∈ ["spring/a.jpg", "x/a.jpg", "x/b.jpg"]
        ∨ "spring/a.jpg" ∈ ["spring/a.jpg", "x/a.jpg", "x/b.jpg"])
    ∧ moveFileStates ["x/a.jpg", "x/b.jpg"] "x/a.jpg" "spring/a.jpg" false
        = [["x/a.jpg", "x/b.jpg"], ["x/a.jpg", "x/b.jpg"], ["x/a.jpg", "x/b.jpg"]] :=
  ⟨(reorganize_never_loses_both ["x/a.jpg", "x/b.jpg"] "x/a.jpg" "spring/a.jpg" true
      (by decide) (by decide)).1 ["x/a.jpg", "x/b.jpg"] (by decide),
   (reorganize_never_loses_both ["x/a.jpg", "x/b.jpg"] "x/a.jpg" "spring/a.jpg" true
      (by decide) (by decide)).2.1 ["spring/a.jpg", "x/a.jpg", "x/b.jpg"] (by decide),
   (reorganize_never_loses_both ["x/a.jpg", "x/b.jpg"] "x/a.jpg" "spring/a.jpg" false
      (by decide) (by decide)).2.2.2 rfl⟩

/-! ## C7 — the automatic threshold search returns the smallest argmin -/

/-- Unfolding the successor step of the grid scan. -/
theorem autoSearchUpTo_succ (count : Nat → Nat) (n : Nat) :
    autoSearchUpTo count (n + 1)
      = if count (n + 1) < count (autoSearchUpTo count n) then n + 1
        else autoSearchUpTo count n := rfl

/-- The scan of the first `n+1` grid points stays inside the grid. -/
theorem autoSearchUpTo_le (count : Nat → Nat) (n : Nat) :
    autoSearchUpTo count n ≤ n := by
  induction n with
  | zero => simp [autoSearchUpTo]
  | succ n ih =>
      rw [autoSearchUpTo_succ]
      by_cases h : count (n + 1) < count (autoSearchUpTo count n)
      · rw [if_pos h]
      · rw [if_neg h]
        exact Nat.le_succ_of_le ih

/-- The scan of the first `n+1` grid points attains the minimum count. -/
theorem autoSearchUpTo_min (count : Nat → Nat) (n : Nat) :
    ∀ u, u ≤ n → count (autoSearchUpTo count n) ≤ count u := by
  induction n with
  | zero =>
      intro u hu
      rw [Nat.le_zero.mp hu]
      simp [autoSearchUpTo]
  | succ n ih =>
      intro u hu
      rw [autoSearchUpTo_succ]
      by_cases h : count (n + 1) < count (autoSearchUpTo count n)
      · rw [if_pos h]
        rcases Nat.lt_succ_iff_lt_or_eq.mp (Nat.lt_succ_of_le hu) with hu' | rfl
        · exact Nat.le_of_lt (Nat.lt_of_lt_of_le h (ih u (Nat.lt_succ_iff.mp hu')))
        · exact Nat.le_refl _
      · rw [if_neg h]
        rcases Nat.lt_succ_iff_lt_or_eq.mp (Nat.lt_succ_of_le hu) with hu' | rfl
        · exact ih u (Nat.lt_succ_iff.mp hu')
        · exact Nat.le_of_not_lt h

/-- Among the grid points attaining the minimum count, the scan keeps the
smallest one. -/
theorem autoSearchUpTo_first (count : Nat → Nat) (n : Nat) :
    ∀ u, u ≤ n → count u = count (autoSearchUpTo count n) →
      autoSearchUpTo count n ≤ u := by
  induction n with
  | zero => intro u _ _; exact Nat.zero_le u
  | succ n ih =>
      intro u hu
      rw [autoSearchUpTo_succ]
      by_cases h : count (n + 1) < count (autoSearchUpTo count n)
      · rw [if_pos h]
        intro hequ
        rcases Nat.lt_succ_iff_lt_or_eq.mp (Nat.lt_succ_of_le hu) with hu' | rfl
        · have hmin := autoSearchUpTo_min count n u (Nat.lt_succ_iff.mp hu')
          rw [hequ] at hmin
          exact absurd (Nat.lt_of_lt_of_le h hmin) (Nat.lt_irrefl _)
        · exact Nat.le_refl _
      · rw [if_neg h]
        intro hequ
        rcases Nat.lt_succ_iff_lt_or_eq.mp (Nat.lt_succ_of_le hu) with hu' | rfl
        · exact ih u (Nat.lt_succ_iff.mp hu') hequ
        · exact Nat.le_trans (autoSearchUpTo_le count n) (Nat.le_succ n)

/-- **C7**: for every unknown rule (hence every fixed §4.4 metric with its
direction) and every fixed input set of distributions, the automatic search
returns a grid threshold that attains the minimum unknown count over the
whole grid `0.00..1.00`, and among all grid thresholds attaining that
minimum it returns the smallest — the deterministic tie-break. -/
theorem autoThreshold_smallest_argmin {α : Type} (flag : Nat → α → Bool)
    (dists : List α) :
    autoThreshold flag dists ≤ 100
    ∧ (∀ u, u ≤ 100 →
        unknownCount flag dists (autoThreshold flag dists) ≤ unknownCount flag dists u)
    ∧ (∀ u, u ≤ 100 →
        unknownCount flag dists u = unknownCount flag dists (autoThreshold flag dists) →
        autoThreshold flag dists ≤ u) :=
  ⟨autoSearchUpTo_le _ 100,
   fun u hu => autoSearchUpTo_min _ 100 u hu,
   fun u hu he => autoSearchUpTo_first _ 100 u hu he⟩

/-- A concrete unknown rule (top-score in hundredths below the threshold)
and input set used to evaluate the threshold-search theorem. -/
def sampleFlag (t : Nat) (score : Nat) : Bool := score < t

def sampleScores : List Nat := [50, 80]

/-- Witness for C7: on the sample input the returned threshold is on the
grid and its unknown count is no larger than at grid point 100. -/
theorem autoThreshold_smallest_argmin_witness :
    autoThreshold sampleFlag sampleScores ≤ 100
    ∧ unknownCount sampleFlag sampleScores (autoThreshold sampleFlag sampleScores)
        ≤ unknownCount sampleFlag sampleScores 100 :=
  ⟨(autoThreshold_smallest_argmin sampleFlag sampleScores).1,
   (autoThreshold_smallest_argmin sampleFlag sampleScores).2.1 100 (by decide)⟩
